import Mathlib

/-!
Verification of the aggregation pipeline in
src/cryptonaire_reports/reports/portfolio.py.

The pipeline (method report, lines 183-222) collects balance tuples from
source adapters, groups them by symbol (pandas groupby with the default
sort=True), combines each group with combine_balances (lines 104-112),
left-joins the grouped frame with the coin-info frame (line 206), computes
total_value_usd = balance * price_usd (line 207) and
portfolio_percentage = x / x.sum() (lines 208-210), then resets the index
and renames the columns (lines 212-214).

Numeric model: pandas columns hold floating-point values with NaN for
missing data.  We model a cell as PVal: an exact rational, NaN, or a
signed infinity, with the IEEE-754 extended arithmetic rules that pandas
(numpy) applies on the values reachable in this pipeline (division by
zero yields NaN or a signed infinity rather than raising; NaN
propagates; Series.sum skips NaN).  Signed zero is not modelled;
rationals stand for the finite values in the structural claims, whose
content does not turn on rounding, and where a claim is itself about
the rounding of the float64 balance sum (line 108), binary64
round-to-nearest-even is modelled explicitly by roundDouble and
floatSum.

Python set iteration order (used by "|".join(set(row["source"])) on
line 107) is not determined by the set's elements; it is modelled by an
explicit enumeration function ord, constrained by validOrd to produce
some permutation of the deduplicated element list.
-/

/-- One balance observation: source tuple (source, symbol, balance) as fed
into pd.DataFrame(balances, columns=["source", "symbol", "balance"]) at
line 189. -/
structure BalanceRecord where
  source : String
  symbol : String
  balance : ℚ
deriving DecidableEq

/-- Modelled from the spec: the per-symbol record returned by
CoinMarketCap.get_coin_info (utils/coin_market_cap.py is not under src/).
Spec section 3 gives the fields: name, price_usd (decimal), and the five
nullable descriptive fields; a symbol with no data is simply absent from
the mapping. -/
structure CoinInfo where
  name : String
  price_usd : ℚ
  rank : Option Int
  market_cap : Option ℚ
  max_supply : Option ℚ
  total_supply : Option ℚ
  circulating_supply : Option ℚ
deriving DecidableEq

/-- A pandas cell of the numeric report columns: a finite value (exact
rational in this model), NaN, or a signed infinity. -/
inductive PVal where
  | num (q : ℚ)
  | nan
  | pinf
  | ninf
deriving DecidableEq

/-- Addition with numpy float semantics on the reachable values: NaN
propagates, opposite infinities give NaN. -/
def padd : PVal → PVal → PVal
  | PVal.nan, _ => PVal.nan
  | _, PVal.nan => PVal.nan
  | PVal.num a, PVal.num b => PVal.num (a + b)
  | PVal.pinf, PVal.ninf => PVal.nan
  | PVal.ninf, PVal.pinf => PVal.nan
  | PVal.pinf, _ => PVal.pinf
  | _, PVal.pinf => PVal.pinf
  | PVal.ninf, _ => PVal.ninf
  | _, PVal.ninf => PVal.ninf

/-- Multiplication with numpy float semantics: NaN propagates,
infinity times zero is NaN. -/
def pmul : PVal → PVal → PVal
  | PVal.nan, _ => PVal.nan
  | _, PVal.nan => PVal.nan
  | PVal.num a, PVal.num b => PVal.num (a * b)
  | PVal.pinf, PVal.num b =>
      if b = 0 then PVal.nan else if 0 < b then PVal.pinf else PVal.ninf
  | PVal.num a, PVal.pinf =>
      if a = 0 then PVal.nan else if 0 < a then PVal.pinf else PVal.ninf
  | PVal.ninf, PVal.num b =>
      if b = 0 then PVal.nan else if 0 < b then PVal.ninf else PVal.pinf
  | PVal.num a, PVal.ninf =>
      if a = 0 then PVal.nan else if 0 < a then PVal.ninf else PVal.pinf
  | PVal.pinf, PVal.pinf => PVal.pinf
  | PVal.pinf, PVal.ninf => PVal.ninf
  | PVal.ninf, PVal.pinf => PVal.ninf
  | PVal.ninf, PVal.ninf => PVal.pinf

/-- Division with numpy float semantics: no exception is ever raised;
0/0 and NaN operands give NaN, v/0 for nonzero finite v gives a signed
infinity (signed zero is not modelled). -/
def pdiv : PVal → PVal → PVal
  | PVal.nan, _ => PVal.nan
  | _, PVal.nan => PVal.nan
  | PVal.num a, PVal.num b =>
      if b = 0 then
        (if a = 0 then PVal.nan else if 0 < a then PVal.pinf else PVal.ninf)
      else PVal.num (a / b)
  | PVal.num _, PVal.pinf => PVal.num 0
  | PVal.num _, PVal.ninf => PVal.num 0
  | PVal.pinf, PVal.num b => if 0 ≤ b then PVal.pinf else PVal.ninf
  | PVal.ninf, PVal.num b => if 0 ≤ b then PVal.ninf else PVal.pinf
  | PVal.pinf, _ => PVal.nan
  | PVal.ninf, _ => PVal.nan

/-- Series.sum() with the default skipna=True: NaN entries are skipped,
the empty (or all-NaN) sum is 0.0. -/
def psumSkipna (l : List PVal) : PVal :=
  l.foldl (fun acc v => match v with | PVal.nan => acc | w => padd acc w) (PVal.num 0)

/-- Sum of a list of cells when every cell is a finite number; none
otherwise. -/
def numSum? : List PVal → Option ℚ
  | [] => some 0
  | PVal.num q :: rest => (numSum? rest).map (fun t => q + t)
  | _ => none

/-- The rows of the pandas group for symbol s: groupby keeps the original
row order inside each group, and grouping is case-sensitive exact match. -/
def groupRecords (bal : List BalanceRecord) (s : String) : List BalanceRecord :=
  bal.filter (fun r => r.symbol == s)

/-- Line 108: result["balance"] = row["balance"].sum() for the group of
symbol s, in the rational abstraction of the finite float64 cells that
the structural claims use (which rows exist, which cells are NaN, labels
and ordering do not turn on rounding).  The rounding behaviour of the
float64 sum itself is modelled faithfully by floatSum below. -/
def aggBalance (bal : List BalanceRecord) (s : String) : ℚ :=
  ((groupRecords bal s).map BalanceRecord.balance).sum

/-- Rounding of the integer fraction a / b (b positive) to the nearest
integer, ties to even — the rounding mode of IEEE-754 arithmetic. -/
def divTiesEven (a b : ℤ) : ℤ :=
  let f := Int.fdiv a b
  let r := a - b * f
  if 2 * r < b then f
  else if b < 2 * r then f + 1
  else if f % 2 = 0 then f else f + 1

/-- Floor base-two logarithm by repeated halving, with an explicit fuel
argument for structural recursion. -/
def log2Fuel : Nat → Nat → Nat
  | 0, _ => 0
  | fuel + 1, n => if n ≤ 1 then 0 else log2Fuel fuel (n / 2) + 1

/-- Floor of the base-two logarithm of a positive natural number. -/
def natLog2 (n : Nat) : Nat := log2Fuel n n

/-- Floor of the base-two logarithm of a nonzero dyadic rational, read
off the reduced fraction.  Exact whenever the denominator is a power of
two, which holds for every binary64 value and every exact sum of such
values. -/
def dyadicExp (q : ℚ) : ℤ :=
  (natLog2 q.num.natAbs : ℤ) - (natLog2 q.den : ℤ)

/-- The 53-bit significand of q scaled into the binade of e: the integer
nearest to q times two to the (52 - e), ties to even. -/
def scaledMantissa (q : ℚ) (e : ℤ) : ℤ :=
  if 0 ≤ 52 - e then
    divTiesEven (q.num * ((2 ^ (52 - e).toNat : ℕ) : ℤ)) (q.den : ℤ)
  else divTiesEven q.num ((q.den : ℤ) * ((2 ^ (e - 52).toNat : ℕ) : ℤ))

/-- Rounding of an exact (dyadic rational) result to the nearest IEEE-754
binary64 double, round-to-nearest ties-to-even: with e the floor
logarithm of the magnitude, the doubles around q are spaced two to the
(e - 52), so the significand scaled by that spacing is rounded to an
integer with ties to even and scaled back.  Faithful for dyadic inputs
at the magnitudes of balance data (the subnormal and overflow thresholds
of binary64 are far outside them). -/
def roundDouble (q : ℚ) : ℚ :=
  if q = 0 then 0
  else
    let e := dyadicExp |q|
    let m := scaledMantissa q e
    if 0 ≤ e - 52 then ((m * ((2 ^ (e - 52).toNat : ℕ) : ℤ) : ℤ) : ℚ)
    else mkRat m (2 ^ (52 - e).toNat)

/-- One float64 addition: the exact sum, rounded to the nearest double. -/
def floatAdd (a b : ℚ) : ℚ := roundDouble (a + b)

/-- Line 108 with the float64 column modelled faithfully:
row["balance"].sum() accumulates the float64 cells starting from 0.0 and
rounds after every addition (numpy sums sequentially at the group sizes
arising here; its pairwise blocking for long arrays is equally a rounded
float sum). -/
def floatSum (l : List ℚ) : ℚ := l.foldl floatAdd 0

/-- The aggregated balance of the group of symbol s under the faithful
float64 model of line 108. -/
def aggBalanceFloat (bal : List BalanceRecord) (s : String) : ℚ :=
  floatSum ((groupRecords bal s).map BalanceRecord.balance)

/-- Every partial sum of the accumulation is exactly representable as a
double (a fixed point of double rounding), so no rounding error can
occur along the fold. -/
def reprStep (acc : ℚ) : List ℚ → Prop
  | [] => True
  | x :: rest => roundDouble (acc + x) = acc + x ∧ reprStep (acc + x) rest

/-- The rational 2 to the minus 53: half an ulp of 1.0 in binary64. -/
def eps : ℚ := mkRat 1 9007199254740992

/-- The exact value 1 + 2 to the minus 52. -/
def oneEps : ℚ := mkRat 4503599627370497 4503599627370496

/-- A symbol group whose float64 sum loses the two small contributions
when 1.0 is accumulated first: balances 1, then twice 2 to the minus
53. -/
def tinyBal : List BalanceRecord :=
  [⟨"a", "BTC", 1⟩, ⟨"b", "BTC", eps⟩, ⟨"c", "BTC", eps⟩]

/-- The same balance records fed in the opposite order. -/
def tinyBalRev : List BalanceRecord :=
  [⟨"c", "BTC", eps⟩, ⟨"b", "BTC", eps⟩, ⟨"a", "BTC", 1⟩]

/-- Line 107: set(row["source"]) for the group of symbol s, enumerated in
the set iteration order ord. -/
def aggSources (ord : List String → List String) (bal : List BalanceRecord)
    (s : String) : List String :=
  ord ((groupRecords bal s).map BalanceRecord.source)

/-- An admissible set iteration order: enumerating a Python set built from
the list l yields each distinct element of l exactly once, in some order,
so the enumeration is a permutation of l.dedup. -/
def validOrd (ord : List String → List String) : Prop :=
  ∀ l : List String, (ord l).Perm l.dedup

/-- One admissible set iteration order (first-occurrence order). -/
def stdOrd : List String → List String := fun l => l.dedup

/-- Another admissible set iteration order (reversed first-occurrence
order). -/
def revOrd : List String → List String := fun l => l.dedup.reverse

/-- Line 107: result["source"] = "|".join(set(row["source"])). -/
def combinedSourceLabel (ord : List String → List String)
    (bal : List BalanceRecord) (s : String) : String :=
  String.intercalate "|" (aggSources ord bal s)

/-- Insertion of a string into a sorted list, comparing by code points as
Python string comparison does. -/
def insertSorted (s : String) : List String → List String
  | [] => [s]
  | t :: rest => if s < t then s :: t :: rest else t :: insertSorted s rest

/-- Insertion sort on strings. -/
def sortStrings (l : List String) : List String :=
  l.foldr insertSorted []

/-- Line 195: groupby(by=["symbol"]) with the default sort=True produces
one group per distinct symbol, in sorted symbol order. -/
def aggSymbols (bal : List BalanceRecord) : List String :=
  sortStrings ((bal.map BalanceRecord.symbol).dedup)

/-- Line 206 join, read off for one symbol: the left join keeps every
grouped symbol and looks its coin info up by key. -/
def lookupInfo (prov : List (String × CoinInfo)) (s : String) : Option CoinInfo :=
  List.lookup s prov

/-- The price_usd cell of symbol s after the left join at line 206: the
provider's price when s has an entry, NaN otherwise. -/
def priceOf (prov : List (String × CoinInfo)) (s : String) : PVal :=
  match lookupInfo prov s with
  | some ci => PVal.num ci.price_usd
  | none => PVal.nan

/-- Line 207: report_pdf["total_value_usd"] = report_pdf["balance"] *
report_pdf["price_usd"], for the row of symbol s. -/
def totalValue (bal : List BalanceRecord) (prov : List (String × CoinInfo))
    (s : String) : PVal :=
  pmul (PVal.num (aggBalance bal s)) (priceOf prov s)

/-- Lines 208-210: x.sum() over the total_value_usd column (skipna). -/
def reportDenominator (bal : List BalanceRecord)
    (prov : List (String × CoinInfo)) : PVal :=
  psumSkipna ((aggSymbols bal).map (totalValue bal prov))

/-- One report row: the columns of report_pdf after line 210 for one
symbol.  Descriptive cells of a symbol with no coin-info entry are NaN in
the frame, modelled as none. -/
structure ReportRow where
  symbol : String
  source : String
  balance : ℚ
  name : Option String
  rank : Option Int
  market_cap : Option ℚ
  max_supply : Option ℚ
  total_supply : Option ℚ
  circulating_supply : Option ℚ
  price_usd : PVal
  total_value_usd : PVal
  portfolio_percentage : PVal
deriving DecidableEq

/-- The row of symbol s after lines 206-210. -/
def buildRow (ord : List String → List String) (bal : List BalanceRecord)
    (prov : List (String × CoinInfo)) (s : String) : ReportRow :=
  let info := lookupInfo prov s
  { symbol := s
    source := combinedSourceLabel ord bal s
    balance := aggBalance bal s
    name := info.map CoinInfo.name
    rank := info.bind CoinInfo.rank
    market_cap := info.bind CoinInfo.market_cap
    max_supply := info.bind CoinInfo.max_supply
    total_supply := info.bind CoinInfo.total_supply
    circulating_supply := info.bind CoinInfo.circulating_supply
    price_usd := priceOf prov s
    total_value_usd := totalValue bal prov s
    portfolio_percentage := pdiv (totalValue bal prov s) (reportDenominator bal prov) }

/-- Lines 183-210 of Portfolio.report, from the combined balance list and
the provider mapping to the report rows.  When the provider mapping is
empty, pd.DataFrame.from_dict({}, orient="index") at line 202 yields a
frame with no columns, the join at line 206 therefore adds no price_usd
column, and report_pdf["price_usd"] at line 207 raises KeyError; that
exception is the error branch here. -/
def reportRows (ord : List String → List String) (bal : List BalanceRecord)
    (prov : List (String × CoinInfo)) : Except String (List ReportRow) :=
  if prov.isEmpty then Except.error "KeyError: price_usd"
  else Except.ok ((aggSymbols bal).map (buildRow ord bal prov))

/-- The total_value_usd column of a row list. -/
def rowTotals (rows : List ReportRow) : List PVal :=
  rows.map ReportRow.total_value_usd

/-- The portfolio_percentage column of a row list. -/
def rowPercentages (rows : List ReportRow) : List PVal :=
  rows.map ReportRow.portfolio_percentage

/-- The source-label column of a finished run; empty when the run raised. -/
def runLabels (ord : List String → List String) (bal : List BalanceRecord)
    (prov : List (String × CoinInfo)) : List String :=
  ((reportRows ord bal prov).toOption.getD []).map ReportRow.source

/-- A source adapter as the collector loops see it: a name and the outcome
of its single get_balances() call, either a record list or a raised
exception. -/
structure SourceAdapter where
  name : String
  result : Except String (List BalanceRecord)

/-- Lines 38-50 (get_balances_from_exchanges) and lines 61-73
(get_balances_from_networks), which have the same loop body: call each
adapter's get_balances() in configuration order, skip an empty result,
extend with a non-empty one.  The loop has no try/except, so a raised
exception propagates out of the method at the failing adapter. -/
def collectBalances : List SourceAdapter → Except String (List BalanceRecord)
  | [] => Except.ok []
  | a :: rest =>
    match a.result with
    | Except.error e => Except.error e
    | Except.ok recs => (collectBalances rest).map (fun r => recs ++ r)

/-- The names of the adapters whose get_balances() is actually invoked by
the collector loop: every adapter up to and including the first one that
raises. -/
def invokedAdapters : List SourceAdapter → List String
  | [] => []
  | a :: rest =>
    match a.result with
    | Except.error _ => [a.name]
    | Except.ok _ => a.name :: invokedAdapters rest

/-- Lines 212-214: report_pdf.reset_index() inserts the symbol index as
the first column; the grouped frame contributes source and balance (the
index of the Series built at lines 109-112), the join appends the
coin-info columns, and lines 207-210 append the two derived columns. -/
def preRenameColumns (infoColumns : List String) : List String :=
  "symbol" :: "source" :: "balance" :: infoColumns
    ++ ["total_value_usd", "portfolio_percentage"]

/-- Modelled from the spec: the key order of the per-coin dicts returned
by CoinMarketCap.get_coin_info (utils/coin_market_cap.py is not under
src/), which fixes the column order that pd.DataFrame.from_dict produces
at line 202.  Spec section 3 lists the CoinInfo fields in this order. -/
def coinInfoColumns : List String :=
  ["name", "price_usd", "rank", "market_cap", "max_supply",
   "total_supply", "circulating_supply"]

/-- Lines 114-129: the get_rename_map dictionary, as a function that is
the identity off its twelve keys (pandas rename leaves other labels
unchanged). -/
def get_rename_map (c : String) : String :=
  if c = "source" then "Exchange(s) / Network(s)"
  else if c = "symbol" then "Symbol"
  else if c = "name" then "Full Name"
  else if c = "rank" then "Coin Rank"
  else if c = "market_cap" then "Market Cap"
  else if c = "max_supply" then "Max Supply"
  else if c = "total_supply" then "Total Supply"
  else if c = "circulating_supply" then "Circulating Supply"
  else if c = "balance" then "Balance"
  else if c = "price_usd" then "Price (USD)"
  else if c = "total_value_usd" then "Total Value (USD)"
  else if c = "portfolio_percentage" then "Portfolio Percentage"
  else c

/-- The column labels of the frame handed to the writer: line 214 renames
the post-reset columns with get_rename_map. -/
def reportColumnLabels : List String :=
  (preRenameColumns coinInfoColumns).map get_rename_map

/-- The twelve labels in the order the spec states them, written from the
words of the spec (section 6) for comparison with reportColumnLabels. -/
def specColumnLabels : List String :=
  ["Exchange(s) / Network(s)", "Symbol", "Full Name", "Coin Rank",
   "Market Cap", "Max Supply", "Total Supply", "Circulating Supply",
   "Balance", "Price (USD)", "Total Value (USD)", "Portfolio Percentage"]

/-- A report row without its source label, for comparing two runs that may
differ in set iteration order. -/
structure RowData where
  symbol : String
  balance : ℚ
  name : Option String
  rank : Option Int
  market_cap : Option ℚ
  max_supply : Option ℚ
  total_supply : Option ℚ
  circulating_supply : Option ℚ
  price_usd : PVal
  total_value_usd : PVal
  portfolio_percentage : PVal
deriving DecidableEq

/-- Forgets the source label of a row. -/
def stripRow (r : ReportRow) : RowData :=
  { symbol := r.symbol
    balance := r.balance
    name := r.name
    rank := r.rank
    market_cap := r.market_cap
    max_supply := r.max_supply
    total_supply := r.total_supply
    circulating_supply := r.circulating_supply
    price_usd := r.price_usd
    total_value_usd := r.total_value_usd
    portfolio_percentage := r.portfolio_percentage }

/-- Coin info for concrete test inputs: a priced coin with no optional
descriptive data. -/
def btcInfo : CoinInfo :=
  { name := "Bitcoin", price_usd := 50000, rank := none, market_cap := none,
    max_supply := none, total_supply := none, circulating_supply := none }

/-- Coin info for concrete test inputs. -/
def ethInfo : CoinInfo :=
  { name := "Ethereum", price_usd := 3000, rank := none, market_cap := none,
    max_supply := none, total_supply := none, circulating_supply := none }

/-- Provider output holding only the BTC entry. -/
def btcOnlyProv : List (String × CoinInfo) := [("BTC", btcInfo)]

/-- Zero-balance portfolio: one record with balance 0, so every total
value is 0 and the percentage denominator is 0. -/
def zeroBal : List BalanceRecord := [⟨"binance", "BTC", 0⟩]

/-- Two-asset portfolio with known prices, the witness scenario. -/
def twoAssetBal : List BalanceRecord :=
  [⟨"binance", "BTC", 1⟩, ⟨"manual", "ETH", 2⟩]

/-- Provider output for the two-asset portfolio. -/
def twoAssetProv : List (String × CoinInfo) := [("BTC", btcInfo), ("ETH", ethInfo)]

/-- Portfolio holding one priced symbol and one symbol unknown to the
provider. -/
def unknownSymBal : List BalanceRecord :=
  [⟨"binance", "BTC", 1⟩, ⟨"wallet1", "XYZ", 10⟩]

/-- One symbol held at two sources, for the set-iteration-order cases. -/
def twoSourceBal : List BalanceRecord := [⟨"A", "BTC", 1⟩, ⟨"B", "BTC", 2⟩]

/-- One symbol fed from sources A, A, B. -/
def dupSourceBal : List BalanceRecord :=
  [⟨"A", "BTC", 1⟩, ⟨"A", "BTC", 2⟩, ⟨"B", "BTC", 3⟩]

/-- An adapter whose get_balances() raises. -/
def badAdapter : SourceAdapter := ⟨"binance", Except.error "AuthError"⟩

/-- An adapter whose get_balances() returns one record. -/
def goodAdapter : SourceAdapter := ⟨"kraken", Except.ok [⟨"kraken", "BTC", 1⟩]⟩

/-- The rows the pipeline produces on the two-asset scenario: totals 50000
and 6000, denominator 56000, percentages 25/28 and 3/28. -/
def twoAssetExpectedRows : List ReportRow :=
  [{ symbol := "BTC", source := "binance", balance := 1, name := some "Bitcoin",
     rank := none, market_cap := none, max_supply := none, total_supply := none,
     circulating_supply := none, price_usd := PVal.num 50000,
     total_value_usd := PVal.num 50000, portfolio_percentage := PVal.num (25/28) },
   { symbol := "ETH", source := "manual", balance := 2, name := some "Ethereum",
     rank := none, market_cap := none, max_supply := none, total_supply := none,
     circulating_supply := none, price_usd := PVal.num 3000,
     total_value_usd := PVal.num 6000, portfolio_percentage := PVal.num (3/28) }]

/-- The rows the pipeline produces on the unknown-symbol scenario: the XYZ
row survives with null descriptive fields, but its total value is NaN. -/
def unknownSymExpectedRows : List ReportRow :=
  [{ symbol := "BTC", source := "binance", balance := 1, name := some "Bitcoin",
     rank := none, market_cap := none, max_supply := none, total_supply := none,
     circulating_supply := none, price_usd := PVal.num 50000,
     total_value_usd := PVal.num 50000, portfolio_percentage := PVal.num 1 },
   { symbol := "XYZ", source := "wallet1", balance := 10, name := none,
     rank := none, market_cap := none, max_supply := none, total_supply := none,
     circulating_supply := none, price_usd := PVal.nan,
     total_value_usd := PVal.nan, portfolio_percentage := PVal.nan }]

/-- The row the pipeline produces on the zero-balance scenario: total value
0, denominator 0, percentage NaN (0.0 / 0.0). -/
def zeroBalExpectedRow : ReportRow :=
  { symbol := "BTC", source := "binance", balance := 0, name := some "Bitcoin",
    rank := none, market_cap := none, max_supply := none, total_supply := none,
    circulating_supply := none, price_usd := PVal.num 50000,
    total_value_usd := PVal.num 0, portfolio_percentage := PVal.nan }

/-- The row the pipeline produces on the two-source scenario under
first-occurrence set iteration order. -/
def twoSourceExpectedRow : ReportRow :=
  { symbol := "BTC", source := "A|B", balance := 3, name := some "Bitcoin",
    rank := none, market_cap := none, max_supply := none, total_supply := none,
    circulating_supply := none, price_usd := PVal.num 50000,
    total_value_usd := PVal.num 150000, portfolio_percentage := PVal.num 1 }

/-- Inserting into a sorted list is a permutation of consing. -/
theorem insertSorted_perm (s : String) (l : List String) :
    (insertSorted s l).Perm (s :: l) := by
  induction l with
  | nil => exact List.Perm.refl _
  | cons t rest ih =>
    rw [insertSorted]
    by_cases h : s < t
    · rw [if_pos h]
    · rw [if_neg h]
      exact (ih.cons t).trans (List.Perm.swap s t rest)

/-- Insertion sort permutes its input. -/
theorem sortStrings_perm (l : List String) : (sortStrings l).Perm l := by
  induction l with
  | nil => exact List.Perm.refl _
  | cons s rest ih => exact (insertSorted_perm s _).trans (ih.cons s)

/-- The grouped symbols are the distinct input symbols. -/
theorem aggSymbols_perm (bal : List BalanceRecord) :
    (aggSymbols bal).Perm (bal.map BalanceRecord.symbol).dedup :=
  sortStrings_perm _

/-- Each distinct symbol occurs exactly once among the grouped symbols. -/
theorem count_aggSymbols (bal : List BalanceRecord) (s : String) :
    (aggSymbols bal).count s = if s ∈ bal.map BalanceRecord.symbol then 1 else 0 := by
  rw [(aggSymbols_perm bal).count_eq, List.count_dedup]

/-- An admissible set enumeration lists each distinct element exactly
once. -/
theorem count_validOrd (ord : List String → List String) (h : validOrd ord)
    (l : List String) (x : String) :
    (ord l).count x = if x ∈ l then 1 else 0 := by
  rw [(h l).count_eq, List.count_dedup]

/-- First-occurrence enumeration is an admissible set iteration order. -/
theorem validOrd_std : validOrd stdOrd := fun _ => List.Perm.refl _

/-- Reversed first-occurrence enumeration is an admissible set iteration
order. -/
theorem validOrd_rev : validOrd revOrd := fun l => l.dedup.reverse_perm

/-- A successful run consists of one built row per grouped symbol. -/
theorem reportRows_ok {ord : List String → List String}
    {bal : List BalanceRecord} {prov : List (String × CoinInfo)}
    {rows : List ReportRow} (hok : reportRows ord bal prov = Except.ok rows) :
    rows = (aggSymbols bal).map (buildRow ord bal prov) := by
  unfold reportRows at hok
  by_cases hp : prov.isEmpty
  · rw [if_pos hp] at hok
    exact absurd hok (fun h => Except.noConfusion h)
  · rw [if_neg hp] at hok
    exact (Except.ok.inj hok).symm

/-- Multiplying by NaN gives NaN. -/
theorem pmul_nan (v : PVal) : pmul v PVal.nan = PVal.nan := by
  cases v <;> rfl

/-- The skipna fold starting from a finite accumulator, over a column of
finite values, adds up exactly. -/
theorem psumSkipna_go (l : List PVal) :
    ∀ (T a : ℚ), numSum? l = some T →
      l.foldl (fun acc v => match v with | PVal.nan => acc | w => padd acc w)
          (PVal.num a)
        = PVal.num (a + T) := by
  induction l with
  | nil =>
    intro T a h
    rw [numSum?] at h
    cases h
    rw [List.foldl_nil, add_zero]
  | cons v rest ih =>
    intro T a h
    cases v with
    | num q =>
      rw [numSum?] at h
      obtain ⟨t, ht, hT⟩ := Option.map_eq_some'.mp h
      rw [List.foldl_cons]
      show List.foldl _ (padd (PVal.num a) (PVal.num q)) rest = _
      rw [show padd (PVal.num a) (PVal.num q) = PVal.num (a + q) from rfl,
        ih t (a + q) ht, ← hT, add_assoc]
    | nan => exact absurd h (fun h => Option.noConfusion h)
    | pinf => exact absurd h (fun h => Option.noConfusion h)
    | ninf => exact absurd h (fun h => Option.noConfusion h)

/-- Series.sum over a column of finite values is their exact sum. -/
theorem psumSkipna_eq_num (l : List PVal) (T : ℚ) (h : numSum? l = some T) :
    psumSkipna l = PVal.num T := by
  have := psumSkipna_go l T 0 h
  rwa [zero_add] at this

/-- Dividing a column of finite values by a nonzero finite scalar divides
its sum. -/
theorem numSum?_map_pdiv (S : ℚ) (hS : S ≠ 0) :
    ∀ (l : List PVal) (T : ℚ), numSum? l = some T →
      numSum? (l.map (fun t => pdiv t (PVal.num S))) = some (T / S) := by
  intro l
  induction l with
  | nil =>
    intro T h
    rw [numSum?] at h
    cases h
    rw [List.map_nil, numSum?, zero_div]
  | cons v rest ih =>
    intro T h
    cases v with
    | num q =>
      rw [numSum?] at h
      obtain ⟨t, ht, hT⟩ := Option.map_eq_some'.mp h
      rw [List.map_cons,
        show pdiv (PVal.num q) (PVal.num S) = PVal.num (q / S) by
          rw [pdiv, if_neg hS],
        numSum?, ih t ht, Option.map_some', ← hT, add_div]
    | nan => exact absurd h (fun h => Option.noConfusion h)
    | pinf => exact absurd h (fun h => Option.noConfusion h)
    | ninf => exact absurd h (fun h => Option.noConfusion h)

/-- C3 counterexample: with no balance record from any source (and,
per the provider contract, an empty provider mapping for the empty symbol
set), the run raises a KeyError at the valuation step instead of
completing; it does not produce a zero-row report. -/
theorem empty_portfolio_counterexample :
    reportRows stdOrd [] [] = Except.error "KeyError: price_usd" := rfl

/-- C3 (amended): when every configured source yields no BalanceRecord,
the provider is asked for the empty symbol set and returns an empty
mapping, the joined frame therefore has no price_usd column, and the run
raises a key lookup error at the valuation step (line 207) rather than
producing a report with zero rows; this holds under every set iteration
order. -/
theorem empty_portfolio_amended (ord : List String → List String) :
    reportRows ord [] [] = Except.error "KeyError: price_usd" := rfl

/-- C3 witness: the amended statement applied to the reversed
enumeration order. -/
theorem empty_portfolio_amended_witness :
    reportRows revOrd [] [] = Except.error "KeyError: price_usd" :=
  empty_portfolio_amended revOrd

/-- C9 counterexample: the claimed label order does not match the frame
handed to the writer; reset_index at line 213 inserts the symbol index as
the first column, so the first label is Symbol, not
Exchange(s) / Network(s). -/
theorem column_labels_counterexample :
    reportColumnLabels ≠ specColumnLabels ∧
    reportColumnLabels.head? = some "Symbol" ∧
    specColumnLabels.head? = some "Exchange(s) / Network(s)" := by
  with_unfolding_all decide

/-- C9 (amended): the report rows handed to the writer carry exactly the
twelve claimed field labels, but in the order Symbol,
Exchange(s) / Network(s), Balance, Full Name, Price (USD), Coin Rank,
Market Cap, Max Supply, Total Supply, Circulating Supply,
Total Value (USD), Portfolio Percentage: the same label set as claimed
(a permutation of it), with Symbol first. -/
theorem column_labels_amended :
    reportColumnLabels
      = ["Symbol", "Exchange(s) / Network(s)", "Balance", "Full Name",
         "Price (USD)", "Coin Rank", "Market Cap", "Max Supply",
         "Total Supply", "Circulating Supply", "Total Value (USD)",
         "Portfolio Percentage"] ∧
    reportColumnLabels.Perm specColumnLabels := by
  with_unfolding_all decide

/-- C5 (amended): every adapter up to the first failure is invoked
exactly once, and an adapter returning an empty or non-empty result does
not stop the loop; but a raised exception propagates out of the collector
at once, so the adapters after the failing one are not invoked and the
whole collection fails with that exception. -/
theorem collector_isolation_amended :
    (∀ l : List SourceAdapter, (∀ a ∈ l, ∃ r, a.result = Except.ok r) →
        invokedAdapters l = l.map SourceAdapter.name) ∧
    (∀ (l₁ l₂ : List SourceAdapter) (a : SourceAdapter) (e : String),
        (∀ x ∈ l₁, ∃ r, x.result = Except.ok r) → a.result = Except.error e →
        invokedAdapters (l₁ ++ a :: l₂) = l₁.map SourceAdapter.name ++ [a.name] ∧
        collectBalances (l₁ ++ a :: l₂) = Except.error e) := by
  constructor
  · intro l h
    induction l with
    | nil => rfl
    | cons x rest ih =>
      obtain ⟨r, hr⟩ := h x (List.mem_cons_self x rest)
      rw [invokedAdapters, hr, List.map_cons,
        ih (fun a ha => h a (List.mem_cons_of_mem x ha))]
  · intro l₁ l₂ a e h₁ ha
    induction l₁ with
    | nil =>
      constructor
      · rw [List.nil_append, invokedAdapters, ha, List.map_nil, List.nil_append]
      · rw [List.nil_append, collectBalances, ha]
    | cons x rest ih =>
      obtain ⟨r, hr⟩ := h₁ x (List.mem_cons_self x rest)
      have ih' := ih (fun y hy => h₁ y (List.mem_cons_of_mem x hy))
      constructor
      · rw [List.cons_append, invokedAdapters, hr, ih'.1, List.map_cons,
          List.cons_append]
      · rw [List.cons_append, collectBalances, hr, ih'.2]
        rfl

/-- C5 witness: the amended statement applied to a one-adapter
configuration whose call succeeds. -/
theorem collector_isolation_amended_witness :
    invokedAdapters [goodAdapter] = ["kraken"] :=
  collector_isolation_amended.1 [goodAdapter] (by
    intro x hx
    rw [List.mem_singleton] at hx
    subst hx
    exact ⟨_, rfl⟩)

/-- C5 counterexample: with a failing adapter configured before a healthy
one, the healthy adapter is never invoked (it is invoked zero times, not
exactly once) and the failure aborts the whole collection. -/
theorem collector_isolation_counterexample :
    (invokedAdapters [badAdapter, goodAdapter]).count "kraken" = 0 ∧
    invokedAdapters [badAdapter, goodAdapter] = ["binance"] ∧
    collectBalances [badAdapter, goodAdapter] = Except.error "AuthError" := by
  refine ⟨?_, ?_, rfl⟩ <;> with_unfolding_all decide

/-- Accumulation without rounding error: when every partial sum along the
fold is a fixed point of double rounding, the float64 fold equals the
exact sum. -/
theorem floatFoldl_of_repr :
    ∀ (l : List ℚ) (acc : ℚ), reprStep acc l →
      l.foldl floatAdd acc = acc + l.sum := by
  intro l
  induction l with
  | nil =>
    intro acc h
    rw [List.foldl_nil, List.sum_nil, add_zero]
  | cons x rest ih =>
    intro acc h
    rw [List.foldl_cons, List.sum_cons,
      show floatAdd acc x = acc + x from h.1, ih (acc + x) h.2, add_assoc]

/-- C4 (amended): line 108 sums the float64 balance column, so for every
symbol group the aggregated balance is the sequentially accumulated
binary64 round-to-nearest-even sum of the contributing balance fields,
not an exact decimal sum; it coincides with the exact sum of the group
precisely in the benign case in which every partial sum of the
accumulation is exactly representable as a double (which holds for the
balances of the concrete scenarios in this development). -/
theorem conservation_of_balance_amended (bal : List BalanceRecord) (s : String)
    (h : reprStep 0 ((groupRecords bal s).map BalanceRecord.balance)) :
    aggBalanceFloat bal s = aggBalance bal s := by
  unfold aggBalanceFloat aggBalance floatSum
  rw [floatFoldl_of_repr _ 0 h, zero_add]

/-- C4 witness: on the two-asset scenario the BTC group is the single
representable balance 1, so the float64 sum is the exact sum. -/
theorem conservation_of_balance_amended_witness :
    aggBalanceFloat twoAssetBal "BTC" = aggBalance twoAssetBal "BTC" :=
  conservation_of_balance_amended twoAssetBal "BTC"
    (by with_unfolding_all exact ⟨rfl, trivial⟩)

/-- C4 counterexample: the BTC group with balances 1, then twice 2 to the
minus 53, has exact sum 1 + 2 to the minus 52; the float64 sum of
line 108 over that order is exactly 1 (both tiny additions round away,
ties to the even significand), while the reverse order of the same
records gives 1 + 2 to the minus 52.  The float sum is lossy and depends
on the input order, refuting the claimed exact, order-independent
decimal summation. -/
theorem conservation_of_balance_counterexample :
    tinyBal.Perm tinyBalRev ∧
    aggBalance tinyBal "BTC" = oneEps ∧
    aggBalance tinyBalRev "BTC" = oneEps ∧
    aggBalanceFloat tinyBal "BTC" = 1 ∧
    aggBalanceFloat tinyBalRev "BTC" = oneEps ∧
    (1 : ℚ) ≠ oneEps :=
  ⟨by decide, by with_unfolding_all rfl, by with_unfolding_all rfl,
   by with_unfolding_all rfl, by with_unfolding_all rfl, by decide⟩

/-- C7: in a successful run, every symbol present in the grouped balances
appears in exactly one report row, whether or not the provider returned
an entry for it, and a symbol absent from the balances appears in no row
at all (the join at line 206 is balance-driven). -/
theorem join_completeness (ord : List String → List String)
    (bal : List BalanceRecord) (prov : List (String × CoinInfo))
    (rows : List ReportRow) (hok : reportRows ord bal prov = Except.ok rows) :
    ∀ s : String, (rows.map ReportRow.symbol).count s
      = if s ∈ bal.map BalanceRecord.symbol then 1 else 0 := by
  intro s
  rw [reportRows_ok hok, List.map_map]
  have hcomp : (ReportRow.symbol ∘ buildRow ord bal prov) = id :=
    funext (fun _ => rfl)
  rw [hcomp, List.map_id]
  exact count_aggSymbols bal s

/-- C7 witness: on the unknown-symbol scenario, XYZ (held but unpriced)
appears exactly once and DOGE (not held) appears in no row. -/
theorem join_completeness_witness :
    (unknownSymExpectedRows.map ReportRow.symbol).count "XYZ" = 1 ∧
    (unknownSymExpectedRows.map ReportRow.symbol).count "DOGE" = 0 := by
  have h := join_completeness stdOrd unknownSymBal btcOnlyProv
    unknownSymExpectedRows (by with_unfolding_all rfl)
  exact ⟨(h "XYZ").trans (by with_unfolding_all decide),
         (h "DOGE").trans (by with_unfolding_all decide)⟩

/-- C8: for every symbol group, under every admissible set iteration
order, the enumerated source set of the group contains each contributing
source exactly once and nothing else: the set of line 107 is the
deduplicated set of the source fields of the contributing records. -/
theorem source_set_dedup (ord : List String → List String) (h : validOrd ord)
    (bal : List BalanceRecord) (s src : String) :
    (aggSources ord bal s).count src
      = if src ∈ (groupRecords bal s).map BalanceRecord.source then 1 else 0 :=
  count_validOrd ord h _ src

/-- C8 witness: a symbol fed from sources A, A, B yields the two-element
source set containing A and B once each. -/
theorem source_set_dedup_witness :
    (aggSources stdOrd dupSourceBal "BTC").count "A" = 1 ∧
    (aggSources stdOrd dupSourceBal "BTC").count "B" = 1 ∧
    (aggSources stdOrd dupSourceBal "BTC").length = 2 :=
  ⟨(source_set_dedup stdOrd validOrd_std dupSourceBal "BTC" "A").trans
      (by with_unfolding_all decide),
   (source_set_dedup stdOrd validOrd_std dupSourceBal "BTC" "B").trans
      (by with_unfolding_all decide),
   by with_unfolding_all decide⟩

/-- C10: in every successful run, each row's Exchange(s) / Network(s)
field is the string joining the enumerated source set of its group with
the bar character, and that enumeration holds each distinct contributing
source exactly once; the relative order of the names is not fixed by the
computation: two admissible set iteration orders produce different label
strings on the same input. -/
theorem source_label_join :
    (∀ ord, validOrd ord →
      ∀ (bal : List BalanceRecord) (prov : List (String × CoinInfo))
        (rows : List ReportRow),
        reportRows ord bal prov = Except.ok rows → ∀ r ∈ rows,
        r.source = String.intercalate "|" (aggSources ord bal r.symbol) ∧
        ∀ src, (aggSources ord bal r.symbol).count src
          = if src ∈ (groupRecords bal r.symbol).map BalanceRecord.source
            then 1 else 0) ∧
    (validOrd stdOrd ∧ validOrd revOrd ∧
      String.intercalate "|" (aggSources stdOrd twoSourceBal "BTC")
        ≠ String.intercalate "|" (aggSources revOrd twoSourceBal "BTC")) := by
  constructor
  · intro ord h bal prov rows hok r hr
    rw [reportRows_ok hok] at hr
    obtain ⟨s, hs, rfl⟩ := List.mem_map.mp hr
    exact ⟨rfl, fun src => count_validOrd ord h _ src⟩
  · exact ⟨validOrd_std, validOrd_rev, by with_unfolding_all decide⟩

/-- C10 witness: the label equation applied to the two-source scenario
under first-occurrence order, where the label evaluates to A|B. -/
theorem source_label_join_witness :
    twoSourceExpectedRow.source
      = String.intercalate "|" (aggSources stdOrd twoSourceBal "BTC") :=
  (source_label_join.1 stdOrd validOrd_std twoSourceBal btcOnlyProv
    [twoSourceExpectedRow] (by with_unfolding_all rfl)
    twoSourceExpectedRow (List.mem_singleton.mpr rfl)).1

/-- C6 (amended): two runs of the pipeline on identical collector and
provider outputs agree on the outcome, on the row order, and on every
field of every row except the combined source label; the label joins the
same set of source names in both runs (each distinct name exactly once),
but the relative order of the names inside the string follows the set
iteration order of the run and is not determined by the inputs. -/
theorem pipeline_determinism_amended (ord₁ ord₂ : List String → List String)
    (h₁ : validOrd ord₁) (h₂ : validOrd ord₂) (bal : List BalanceRecord)
    (prov : List (String × CoinInfo)) :
    Except.map (List.map stripRow) (reportRows ord₁ bal prov)
      = Except.map (List.map stripRow) (reportRows ord₂ bal prov) ∧
    ∀ s, (aggSources ord₁ bal s).Perm (aggSources ord₂ bal s) := by
  constructor
  · unfold reportRows
    by_cases hp : prov.isEmpty
    · simp only [if_pos hp]
    · have hfun : stripRow ∘ buildRow ord₁ bal prov
          = stripRow ∘ buildRow ord₂ bal prov :=
        funext (fun _ => rfl)
      simp only [if_neg hp, Except.map, List.map_map, hfun]
  · intro s
    exact (h₁ _).trans (h₂ _).symm

/-- C6 witness: the determinism-up-to-label statement applied to the
two-source scenario and the two concrete enumeration orders. -/
theorem pipeline_determinism_amended_witness :
    Except.map (List.map stripRow) (reportRows stdOrd twoSourceBal btcOnlyProv)
      = Except.map (List.map stripRow) (reportRows revOrd twoSourceBal btcOnlyProv) :=
  (pipeline_determinism_amended stdOrd revOrd validOrd_std validOrd_rev
    twoSourceBal btcOnlyProv).1

/-- C6 counterexample: on identical collector and provider outputs, two
runs that only differ in Python's set iteration order (both admissible)
produce different combined source labels, A|B against B|A, so the report
rows are not identical including the combined source label. -/
theorem pipeline_determinism_counterexample :
    validOrd stdOrd ∧ validOrd revOrd ∧
    runLabels stdOrd twoSourceBal btcOnlyProv = ["A|B"] ∧
    runLabels revOrd twoSourceBal btcOnlyProv = ["B|A"] ∧
    ("A|B" : String) ≠ "B|A" :=
  ⟨validOrd_std, validOrd_rev, by with_unfolding_all decide,
   by with_unfolding_all decide, by decide⟩

/-- C1 (amended): in every successful run, each row's
portfolio_percentage is its total_value_usd divided (with float division
semantics) by the skipna sum of the total_value_usd column; when every
total is a finite number and their sum is nonzero, the percentages sum
exactly to 1; but when the denominator is zero, a row whose total value
is zero gets percentage NaN (the float quotient 0.0 / 0.0), not 0 — no
division error is raised, yet the percentages are not defined as zero. -/
theorem percentage_normalization_amended (ord : List String → List String)
    (bal : List BalanceRecord) (prov : List (String × CoinInfo))
    (rows : List ReportRow) (hok : reportRows ord bal prov = Except.ok rows) :
    (∀ r ∈ rows, r.portfolio_percentage
        = pdiv r.total_value_usd (psumSkipna (rowTotals rows))) ∧
    (∀ T : ℚ, numSum? (rowTotals rows) = some T → T ≠ 0 →
        numSum? (rowPercentages rows) = some 1) ∧
    (psumSkipna (rowTotals rows) = PVal.num 0 →
        ∀ r ∈ rows, r.total_value_usd = PVal.num 0 →
          r.portfolio_percentage = PVal.nan) := by
  have hrows := reportRows_ok hok
  subst hrows
  have htot : rowTotals ((aggSymbols bal).map (buildRow ord bal prov))
      = (aggSymbols bal).map (totalValue bal prov) := by
    unfold rowTotals
    rw [List.map_map]
    rfl
  have hden : psumSkipna (rowTotals ((aggSymbols bal).map (buildRow ord bal prov)))
      = reportDenominator bal prov := by
    rw [htot]
    rfl
  refine ⟨?_, ?_, ?_⟩
  · intro r hr
    obtain ⟨s, hs, rfl⟩ := List.mem_map.mp hr
    show pdiv (totalValue bal prov s) (reportDenominator bal prov) = _
    rw [hden]
    rfl
  · intro T hT hT0
    have hpden : reportDenominator bal prov = PVal.num T := by
      rw [← hden]
      exact psumSkipna_eq_num _ T hT
    have hfun : (ReportRow.portfolio_percentage ∘ buildRow ord bal prov)
        = fun s => pdiv (totalValue bal prov s) (PVal.num T) := by
      funext s
      show pdiv (totalValue bal prov s) (reportDenominator bal prov) = _
      rw [hpden]
    have hpct : rowPercentages ((aggSymbols bal).map (buildRow ord bal prov))
        = (rowTotals ((aggSymbols bal).map (buildRow ord bal prov))).map
            (fun t => pdiv t (PVal.num T)) := by
      unfold rowPercentages
      rw [List.map_map, hfun, htot, List.map_map]
      rfl
    rw [hpct, numSum?_map_pdiv T hT0 _ T hT, div_self hT0]
  · intro h0 r hr htot0
    obtain ⟨s, hs, rfl⟩ := List.mem_map.mp hr
    have hd0 : reportDenominator bal prov = PVal.num 0 := hden.symm.trans h0
    have h1 : (buildRow ord bal prov s).portfolio_percentage
        = pdiv ((buildRow ord bal prov s).total_value_usd)
            (reportDenominator bal prov) := rfl
    rw [h1, htot0, hd0, pdiv, if_pos rfl, if_pos rfl]

/-- C1 witness: the normalization clause applied to the two-asset
scenario, whose totals are 50000 and 6000: the percentages sum exactly
to 1. -/
theorem percentage_normalization_amended_witness :
    numSum? (rowPercentages twoAssetExpectedRows) = some 1 :=
  (percentage_normalization_amended stdOrd twoAssetBal twoAssetProv
      twoAssetExpectedRows (by with_unfolding_all rfl)).2.1 56000
    (by with_unfolding_all rfl) (by with_unfolding_all decide)

/-- C1 counterexample: a portfolio holding one priced asset with balance
0 produces one row with total value 0, so the denominator is 0, and the
row's portfolio_percentage is NaN rather than exactly 0 as claimed. -/
theorem percentage_zero_denominator_counterexample :
    reportRows stdOrd zeroBal btcOnlyProv = Except.ok [zeroBalExpectedRow] ∧
    zeroBalExpectedRow.total_value_usd = PVal.num 0 ∧
    psumSkipna (rowTotals [zeroBalExpectedRow]) = PVal.num 0 ∧
    zeroBalExpectedRow.portfolio_percentage = PVal.nan ∧
    PVal.nan ≠ PVal.num 0 :=
  ⟨by with_unfolding_all rfl, rfl, by with_unfolding_all rfl, rfl, by decide⟩

/-- C2 (amended): in every run that completes (the provider returned at
least one entry), a symbol that is held but has no provider entry still
yields its report row, with every descriptive field null; but its
price_usd cell is NaN after the left join, so its total_value_usd is
balance times NaN, which is NaN — a missing value, not 0. -/
theorem missing_market_data_amended (ord : List String → List String)
    (bal : List BalanceRecord) (prov : List (String × CoinInfo))
    (rows : List ReportRow) (s : String)
    (hok : reportRows ord bal prov = Except.ok rows)
    (hs : s ∈ bal.map BalanceRecord.symbol)
    (hmiss : lookupInfo prov s = none) :
    ∃ r ∈ rows, r.symbol = s ∧ r.name = none ∧ r.rank = none ∧
      r.market_cap = none ∧ r.max_supply = none ∧ r.total_supply = none ∧
      r.circulating_supply = none ∧ r.price_usd = PVal.nan ∧
      r.total_value_usd = PVal.nan := by
  rw [reportRows_ok hok]
  have hfields : buildRow ord bal prov s
      = { symbol := s, source := combinedSourceLabel ord bal s,
          balance := aggBalance bal s, name := none, rank := none,
          market_cap := none, max_supply := none, total_supply := none,
          circulating_supply := none, price_usd := PVal.nan,
          total_value_usd := PVal.nan,
          portfolio_percentage := pdiv PVal.nan (reportDenominator bal prov) } := by
    unfold buildRow totalValue priceOf
    rw [hmiss]
    rfl
  refine ⟨buildRow ord bal prov s,
    List.mem_map_of_mem _ ((aggSymbols_perm bal).mem_iff.mpr
      (List.mem_dedup.mpr hs)), ?_⟩
  rw [hfields]
  exact ⟨rfl, rfl, rfl, rfl, rfl, rfl, rfl, rfl, rfl⟩

/-- C2 witness: the amended statement applied to the unknown-symbol
scenario, where XYZ is held at wallet1 but absent from the provider
output. -/
theorem missing_market_data_amended_witness :
    ∃ r ∈ unknownSymExpectedRows, r.symbol = "XYZ" ∧ r.name = none ∧
      r.rank = none ∧ r.market_cap = none ∧ r.max_supply = none ∧
      r.total_supply = none ∧ r.circulating_supply = none ∧
      r.price_usd = PVal.nan ∧ r.total_value_usd = PVal.nan :=
  missing_market_data_amended stdOrd unknownSymBal btcOnlyProv
    unknownSymExpectedRows "XYZ" (by with_unfolding_all rfl)
    (by with_unfolding_all decide) (by with_unfolding_all rfl)

/-- C2 counterexample: with BTC priced and XYZ unknown to the provider,
the XYZ row's total_value_usd is NaN — a not-a-number value — and not 0
as claimed. -/
theorem missing_market_data_counterexample :
    reportRows stdOrd unknownSymBal btcOnlyProv
      = Except.ok unknownSymExpectedRows ∧
    unknownSymExpectedRows.map ReportRow.total_value_usd
      = [PVal.num 50000, PVal.nan] ∧
    PVal.nan ≠ PVal.num 0 :=
  ⟨by with_unfolding_all rfl, rfl, by decide⟩
